import Mathlib

/-!
Verification of the paginated fetch-and-checkpoint scripts
(`scripts/fetch_all_players.py` and `scripts/fetch_store_players.py`)
against their natural-language specification.

JSON values are embedded as `JVal` (numbers as integers: every id and
pagination field in the scripts is integral).  Python dicts appearing as
JSON objects are association lists in insertion order, which is exactly
Python's dict semantics (assignment to an existing key keeps its position,
a new key is appended).  Each Python function modelled below keeps its
source name where the identifier is legal in Lean; the doc comment of each
definition names the source function and lines it embeds.
-/

/-- JSON-compatible value, as produced by `json.load` in the scripts. -/
inductive JVal where
  | jnull
  | jbool (b : Bool)
  | jint (n : Int)
  | jstr (s : String)
  | jarr (xs : List JVal)
  | jobj (kvs : List (String × JVal))

/-- Field lookup in a JSON object's association list (first match),
the semantics of Python's `dict.get` on the dicts built by the scripts. -/
def lookupField : List (String × JVal) → String → Option JVal
  | [], _ => none
  | (k', v) :: rest, k => if k' = k then some v else lookupField rest k

/-- `d.get(k)` on a parsed JSON value: `none` when the value is not an
object or the key is absent. -/
def jGet (v : JVal) (k : String) : Option JVal :=
  match v with
  | .jobj kvs => lookupField kvs k
  | _ => none

/-- `d.get(k, default)`. -/
def jGetD (v : JVal) (k : String) (d : JVal) : JVal :=
  (jGet v k).getD d

/-- Python dict assignment `d[k] = v` on an object's association list:
an existing key keeps its position and is overwritten, a new key is
appended at the end. -/
def setField : List (String × JVal) → String → JVal → List (String × JVal)
  | [], k, v => [(k, v)]
  | (k', v') :: rest, k, v =>
    if k' = k then (k, v) :: rest else (k', v') :: setField rest k v

/-- Outcome of opening and parsing a JSON file:
missing (`FileNotFoundError`), present but unparseable
(`json.JSONDecodeError` or any other exception), or parsed. -/
inductive LoadResult where
  | missing
  | unparseable
  | ok (v : JVal)

/-- `load_json_or` (fetch_all_players.py, lines 55-63): return the parsed
value; on a missing file or any parse failure return the default (the
parse-failure path additionally logs a warning). -/
def load_json_or (r : LoadResult) (default : JVal) : JVal :=
  match r with
  | .ok v => v
  | .missing => default
  | .unparseable => default

/-- The in-memory store of fetch_all_players.py: `players_by_id`, a
Python `dict[int, dict]` in insertion order. -/
abbrev Store := List (Int × JVal)

/-- Python dict assignment on an int-keyed dict (in-place overwrite for an
existing key, append for a new key). -/
def dictSet : Store → Int → JVal → Store
  | [], k, v => [(k, v)]
  | (k', v') :: rest, k, v =>
    if k' = k then (k, v) :: rest else (k', v') :: dictSet rest k v

/-- Python dict lookup `d[k]` / `k in d` on the int-keyed store. -/
def storeFind : Store → Int → Option JVal
  | [], _ => none
  | (k', v) :: rest, k => if k' = k then some v else storeFind rest k

/-- `to_plain_dict` (fetch_all_players.py, lines 66-89): a dict passes
through unchanged; any non-dict value ends up wrapped as
`{"value": str(obj)}` (the `str` rendering itself is abstracted, which is
sound for the claims: such a wrapper has no "id" field either way). -/
def to_plain_dict (v : JVal) : JVal :=
  match v with
  | .jobj kvs => .jobj kvs
  | other => .jobj [("value", other)]

/-- The per-page merge of fetch_all_players.py (lines 183-190): for each
item, `d = to_plain_dict(item)`, `pid = d.get("id")`; when `pid` is an
int the record is stored with `players_by_id[pid] = d` — an unconditional
assignment that overwrites an existing entry — and `page_count` is
incremented; otherwise the item is skipped.  Returns the updated store
and `page_count`. -/
def merge_all : Store → List JVal → Store × Nat
  | s, [] => (s, 0)
  | s, item :: rest =>
    let d := to_plain_dict item
    match jGet d "id" with
    | some (.jint pid) =>
      let r := merge_all (dictSet s pid d) rest
      (r.1, r.2 + 1)
    | _ => merge_all s rest

/-- The ascending key order used by `save_progress`
(`sorted(players_by_id.keys())`, fetch_all_players.py line 109). -/
def sortedKeys (s : Store) : List Int :=
  List.insertionSort (· ≤ ·) (s.map Prod.fst)

/-- `save_progress` (fetch_all_players.py, lines 102-110): the JSON array
written to the output file, `[players_by_id[k] for k in sorted(players_by_id.keys())]`. -/
def save_progress_players (s : Store) : List JVal :=
  (sortedKeys s).map (fun k => (storeFind s k).getD .jnull)

/-- Python `int(x)` on a JSON value: ints pass through, bools coerce,
integer-literal strings parse; everything else raises (`none` here). -/
def pyToInt : JVal → Option Int
  | .jint n => some n
  | .jbool b => some (if b then 1 else 0)
  | .jstr s => s.toInt?
  | _ => none

/-- The resume-load of the output file in `fetch_all_players_progressive`
(lines 130-137): iterate the parsed array; for each item take
`int(item.get("id"))`, skipping the item on any exception. -/
def buildStoreAll (xs : List JVal) : Store :=
  xs.foldl
    (fun s item =>
      match item with
      | .jobj kvs =>
        match lookupField kvs "id" with
        | some v =>
          match pyToInt v with
          | some pid => dictSet s pid item
          | none => s
        | none => s
      | _ => s)
    []

/-- Items iterated from the loaded output file: a parsed JSON array
yields its elements; the failure defaults used by the script are `[]`.
(A parsed non-array is not modelled further: the claims under proof only
concern missing or unparseable files, where the default `[]` applies.) -/
def itemsOfLoaded : JVal → List JVal
  | .jarr xs => xs
  | _ => []

/-- `state.get("resume_cursor") if isinstance(state, dict) else None`
(fetch_all_players.py line 140); a stored JSON `null` is Python `None`. -/
def cursor_of_state : JVal → Option JVal
  | .jobj kvs =>
    match lookupField kvs "resume_cursor" with
    | some .jnull => none
    | some v => some v
    | none => none
  | _ => none

/-- Start-up of `fetch_all_players_progressive` (lines 129-140): load the
output file (default `[]`) and rebuild the store from it, load the state
file (default `{"resume_cursor": None}`) and take the resume cursor from
it.  The two files are loaded and defaulted independently. -/
def startup_all (outF stateF : LoadResult) : Store × Option JVal :=
  let existing := load_json_or outF (.jarr [])
  let store := buildStoreAll (itemsOfLoaded existing)
  let state := load_json_or stateF (.jobj [("resume_cursor", .jnull)])
  (store, cursor_of_state state)

/-- State of a file at a path: absent, a complete snapshot, or the torn
remains of a write that was interrupted part-way. -/
inductive FileState where
  | absent
  | complete (data : JVal)
  | torn

/-- The canonical file and its sibling temporary file, as used by
`atomic_write_json`. -/
structure FilePair where
  canonical : FileState
  tmp : FileState

/-- `atomic_write_json` (fetch_all_players.py, lines 45-52) under a crash
at step `k`: step 0 = before anything is written; step 1 = the temporary
file is open and partially written; step 2 = the temporary file is fully
written, flushed and fsynced; step 3 (or later) = `os.replace` has moved
the temporary file onto the canonical path. -/
def atomic_write_json_crash (fs : FilePair) (data : JVal) (k : Nat) : FilePair :=
  if k = 0 then fs
  else if k = 1 then { fs with tmp := .torn }
  else if k = 2 then { fs with tmp := .complete data }
  else { canonical := .complete data, tmp := .absent }

/-- The two files written by `fetch_all_players_progressive` after the
loop: the players output file and the checkpoint state file, each as its
parse outcome. -/
structure AllFiles where
  outFile : LoadResult
  stateFile : LoadResult

/-- The end-of-run finalization of `fetch_all_players_progressive`
(lines 229-236): reload the state file with default `{}`; if the result
is a dict, set `resume_cursor` to `None` and `last_saved_at` to the
current timestamp `ts` and atomically rewrite the state file; otherwise
write nothing.  No file is deleted. -/
def finalize_all (fs : AllFiles) (ts : JVal) : AllFiles :=
  match load_json_or fs.stateFile (.jobj []) with
  | .jobj kvs =>
    { fs with
      stateFile := .ok (.jobj (setField (setField kvs "resume_cursor" .jnull) "last_saved_at" ts)) }
  | _ => fs

/-- Python truthiness of the `next_cursor` value at
`if not next_cursor: break` (fetch_all_players.py line 222): falsy when
absent (`None`) or equal to the integer `0`. -/
def cursorFalsy : Option Int → Bool
  | none => true
  | some c => c = 0

/-- One call of `api.nba.players.list(...)` in fetch_all_players.py:
either it raises (any exception), or it returns a page of items together
with the `next_cursor` taken from the response metadata. -/
inductive AOutcome where
  | fail
  | ok (data : List JVal) (next : Option Int)

/-- Why the fetch_all_players.py loop ended: the retry ceiling was
exceeded (early `return`), the empty-page safety valve fired, the
`next_cursor` was falsy, or the modelled call trace ran out while the
loop still wanted to fetch. -/
inductive AStop where
  | retryCeiling
  | emptyStreak
  | noCursor
  | outOfTrace

/-- Loop state of `fetch_all_players_progressive`: the store, the current
cursor, the consecutive-empty-page streak, the per-page retry counter,
plus observation logs — every `save_progress` call (store contents and
the cursor written to the checkpoint), every backoff sleep, and the
number of API calls issued. -/
structure AState where
  store : Store
  cursor : Option Int
  emptyStreak : Nat
  retries : Nat
  persists : List (Store × Option Int)
  sleeps : List Nat
  calls : Nat

/-- The `while True` loop of `fetch_all_players_progressive`
(fetch_all_players.py, lines 160-226), driven by the list of outcomes of
the successive API calls (each iteration that reaches the call consumes
one).  On an exception: increment `retries_for_page`; past 5 retries
return (`.retryCeiling`); otherwise sleep `min(2**(r-1), 32)` and retry.
On success: reset the retry counter, merge the page
(`merge_all`), update the empty-page streak, persist store and cursor
(`save_progress`, recorded in `persists` — note a cursor of `0` is
persisted as `0`, not as `None`), then stop if the streak reached
`MAX_EMPTY_STREAK = 5` or the next cursor is falsy, else continue from
the next cursor. -/
def runLoop : List AOutcome → AState → AState × AStop
  | [], st => (st, .outOfTrace)
  | .fail :: rest, st =>
    let r := st.retries + 1
    if r > 5 then
      ({ st with retries := r, calls := st.calls + 1 }, .retryCeiling)
    else
      runLoop rest
        { st with
          retries := r
          calls := st.calls + 1
          sleeps := st.sleeps ++ [min (2 ^ (r - 1)) 32] }
  | .ok data nc :: rest, st =>
    let m := merge_all st.store data
    let es := if m.2 = 0 then st.emptyStreak + 1 else 0
    let st' : AState :=
      { store := m.1
        cursor := st.cursor
        emptyStreak := es
        retries := 0
        persists := st.persists ++ [(m.1, nc)]
        sleeps := st.sleeps
        calls := st.calls + 1 }
    if 5 ≤ es then (st', .emptyStreak)
    else if cursorFalsy nc then (st', .noCursor)
    else runLoop rest { st' with cursor := nc }

/-- The store of fetch_store_players.py: `players_by_id`, declared
`Dict[int, ...]` but at runtime an ordinary Python dict whose keys are
whatever was used to build it — hence JSON-valued keys. -/
abbrev RawStore := List (JVal × JVal)

/-- Equality of Python-hashable JSON scalars used as dict keys.
(Python's `True == 1` bool/int key collapse is not modelled; no id in
the claims is a bool.) -/
def scalarEq : JVal → JVal → Bool
  | .jnull, .jnull => true
  | .jbool a, .jbool b => a == b
  | .jint a, .jint b => a == b
  | .jstr a, .jstr b => a == b
  | _, _ => false

/-- Python dict assignment on a raw-keyed dict. -/
def rawSet : RawStore → JVal → JVal → RawStore
  | [], k, v => [(k, v)]
  | (k', v') :: rest, k, v =>
    if scalarEq k' k then (k, v) :: rest else (k', v') :: rawSet rest k v

/-- `pid in target` / `target[pid]` for an integer `pid` against the
raw-keyed store: only an entry whose key is that integer matches. -/
def findRaw : RawStore → Int → Option JVal
  | [], _ => none
  | (k, v) :: rest, pid =>
    match k with
    | .jint m => if m = pid then some v else findRaw rest pid
    | _ => findRaw rest pid

/-- `item.get("player", {})` (fetch_store_players.py line 185). -/
def playerOf (item : JVal) : JVal :=
  jGetD item "player" (.jobj [])

/-- `merge_players` (fetch_store_players.py, lines 176-194): for each
item take `player = item.get("player", {})` and `pid = player.get("id")`;
when `pid` is an int and not yet a key of the target, append the player
under key `pid` and count it as added; an already-present id is left
untouched (first seen wins); an absent or non-int id is skipped. -/
def merge_players : RawStore → List JVal → RawStore × Nat
  | t, [] => (t, 0)
  | t, item :: rest =>
    match jGet (playerOf item) "id" with
    | some (.jint pid) =>
      if (findRaw t pid).isSome then
        merge_players t rest
      else
        let r := merge_players (t ++ [(.jint pid, playerOf item)]) rest
        (r.1, r.2 + 1)
    | _ => merge_players t rest

/-- Folding `merge_players` over successive pages of items, as the
200-status branch of `main` does page after page. -/
def mergePagesFS (t : RawStore) (pages : List (List JVal)) : RawStore :=
  pages.foldl (fun s items => (merge_players s items).1) t

/-- The first player record among `items` whose `item["player"]["id"]`
equals `pid` (the record the spec says the store must keep). -/
def firstWith : List JVal → Int → Option JVal
  | [], _ => none
  | item :: rest, pid =>
    match jGet (playerOf item) "id" with
    | some (.jint m) =>
      if m = pid then some (playerOf item) else firstWith rest pid
    | _ => firstWith rest pid

/-- Left-biased choice on options (`a` if present, else `b`). -/
def optOr (a b : Option JVal) : Option JVal :=
  match a with
  | some v => some v
  | none => b

/-- The players array written by `save_partial`
(fetch_store_players.py line 212): `list(players_by_id.values())`, i.e.
the records in dict insertion order, with no sorting. -/
def save_snapshot_players (t : RawStore) : List JVal :=
  t.map Prod.snd

/-- The partial-data file and the checkpoint file written by
`save_partial`. -/
structure SnapshotFiles where
  storeFile : FileState
  checkpointFile : FileState

/-- `save_partial` (fetch_store_players.py, lines 197-230) under a crash
at step `k`.  Both files are written with `Path.write_text`, which opens
the canonical path directly (truncate, then write): step 0 = before
anything; step 1 = the partial-data file is truncated/partially written;
step 2 = the partial-data file is fully written; step 3 = the checkpoint
file is truncated/partially written; step 4 (or later) = both writes
completed.  `dat` and `chk` are the JSON payloads of the two files. -/
def save_snapshot_crash (fs : SnapshotFiles) (dat chk : JVal) (k : Nat) : SnapshotFiles :=
  if k = 0 then fs
  else if k = 1 then { fs with storeFile := .torn }
  else if k = 2 then { fs with storeFile := .complete dat }
  else if k = 3 then { storeFile := .complete dat, checkpointFile := .torn }
  else { storeFile := .complete dat, checkpointFile := .complete chk }

/-- `finalize` (fetch_store_players.py, lines 256-264) on the three files
`(final output, partial data, checkpoint)`, each `some content` when the
file exists: copy the partial file's content over the final output, then
delete the partial file; the checkpoint file is left exactly as it was
(its `next_page` is never rewritten).  `main` only calls it when the
partial file exists; otherwise the files are untouched. -/
def finalize_fs (finalF snapF chkF : Option JVal) : Option JVal × Option JVal × Option JVal :=
  match snapF with
  | some d => (some d, none, chkF)
  | none => (finalF, none, chkF)

/-- True when some item's `"id"` is a list or dict: using it as a dict
key raises `TypeError: unhashable type` inside the comprehension of
`load_checkpoint`, which its `except` turns into a fresh start. -/
def anyUnhashableId (xs : List JVal) : Bool :=
  xs.any fun p =>
    match p with
    | .jobj pkvs =>
      match lookupField pkvs "id" with
      | some (.jarr _) => true
      | some (.jobj _) => true
      | _ => false
    | _ => false

/-- The dict comprehension of `load_checkpoint` (line 244-246):
`{p["id"]: p for p in players_list if isinstance(p, dict) and "id" in p}`
— keys are the raw `"id"` values, with no integer check; a repeated key
keeps its first position and its last value (Python dict semantics). -/
def chkStoreOf (xs : List JVal) : RawStore :=
  xs.foldl
    (fun t p =>
      match p with
      | .jobj pkvs =>
        match lookupField pkvs "id" with
        | some idv => rawSet t idv p
        | none => t
      | _ => t)
    []

/-- `chk.get("total_pages")` as the Python value it yields (`None` for an
absent key or a stored JSON null). -/
def totalPagesOf (ckvs : List (String × JVal)) : Option JVal :=
  match lookupField ckvs "total_pages" with
  | some .jnull => none
  | some v => some v
  | none => none

/-- `load_checkpoint` (fetch_store_players.py, lines 233-253): if either
file is missing, start fresh at `(1, None, {})`; otherwise parse both,
take `next_page = int(chk.get("next_page", 1))` (clamped below by 1 on
return), `total_pages = chk.get("total_pages")`, and rebuild the store
from `data.get("players", [])` by the raw-keyed comprehension; any
exception along the way (unparseable file, non-dict `chk`/`data`,
non-int `next_page`, unhashable id, non-iterable players value) is
caught and yields the same fresh start.  Iterating a dict or a string as
the players value yields string keys or characters, which the
`isinstance(p, dict)` guard filters out, leaving an empty store. -/
def load_checkpoint (chkF datF : LoadResult) : Int × Option JVal × RawStore :=
  match chkF, datF with
  | .missing, _ => (1, none, [])
  | _, .missing => (1, none, [])
  | .unparseable, _ => (1, none, [])
  | _, .unparseable => (1, none, [])
  | .ok chk, .ok data =>
    match chk, data with
    | .jobj ckvs, .jobj dkvs =>
      match pyToInt ((lookupField ckvs "next_page").getD (.jint 1)) with
      | none => (1, none, [])
      | some np =>
        match (lookupField dkvs "players").getD (.jarr []) with
        | .jarr xs =>
          if anyUnhashableId xs then (1, none, [])
          else (max 1 np, totalPagesOf ckvs, chkStoreOf xs)
        | .jobj _ => (max 1 np, totalPagesOf ckvs, [])
        | .jstr _ => (max 1 np, totalPagesOf ckvs, [])
        | _ => (1, none, [])
    | _, _ => (1, none, [])

/-- Run-wide configuration of fetch_store_players.py's `main`:
`--max-retries` (default 5), `--wait-for-reset`, and the current unix
time used by `sleep_until_reset`. -/
structure SConfig where
  maxRetries : Nat
  waitForReset : Bool
  now : Nat

/-- One well-formed HTTP response of `fetch_page`: its status, the
rate-limit headers the script reads (`retry-after`, the `remaining` and
`reset` counters — each already through `get_int`, so a non-digit header
is `none`), the `response` items and the `paging.total` field (kept only
when it is an int, matching the `isinstance(total, int)` guard). -/
structure HttpResp where
  status : Nat
  retryAfterHdr : Option Nat
  remaining : Option Int
  reset : Option Nat
  items : List JVal
  pagingTotal : Option Int

/-- Why the fetch_store_players.py loop ended: reported total pages
reached, an empty 200-page, the daily limit with waiting disabled, the
retry ceiling, or the modelled trace ran out while the loop still wanted
to fetch. -/
inductive SStop where
  | totalReached
  | emptyPage
  | dailyLimit
  | maxRetries
  | outOfTrace

/-- Loop state of fetch_store_players.py's `main`: current page, the
reported total pages, the store, `consecutive_retries`, plus observation
logs — every `save_partial` call (store, page, total pages), every sleep
duration, and the number of `fetch_page` calls. -/
structure SState where
  page : Int
  totalPages : Option Int
  store : RawStore
  retries : Nat
  persists : List (RawStore × Int × Option Int)
  sleeps : List Nat
  calls : Nat

/-- `page > total_pages_reported` check at the top of the loop
(fetch_store_players.py line 301). -/
def stopTotal (st : SState) : Bool :=
  match st.totalPages with
  | some t => st.page > t
  | none => false

/-- The fallback of `sleep_until_reset` when no truthy `retry-after` is
present (fetch_store_players.py, lines 147-159): a plausible `reset`
timestamp (truthy, strictly in the future, less than a day away) gives
`reset - now`; else a conservative 60s. -/
def sleep_reset_fallback (cfg : SConfig) (reset : Option Nat) : Nat :=
  match reset with
  | some r =>
    if 0 < r ∧ r > cfg.now ∧ r - cfg.now < 24 * 3600 then r - cfg.now else 60
  | none => 60

/-- `sleep_until_reset` (fetch_store_players.py, lines 138-159): the slept
duration — a truthy (positive) `retry-after` wins; else the `reset`
fallback. -/
def sleep_until_reset_wait (cfg : SConfig) (ra reset : Option Nat) : Nat :=
  match ra with
  | some n =>
    if n > 0 then n else sleep_reset_fallback cfg reset
  | none => sleep_reset_fallback cfg reset

/-- The capped exponential backoff `min(2**consecutive_retries, 60)`
(fetch_store_players.py lines 377 and 390). -/
def expBackoff (r : Nat) : Nat :=
  min (2 ^ r) 60

/-- The `while True` loop of fetch_store_players.py's `main`
(lines 300-393), driven by the list of responses of the successive
`fetch_page` calls.  Top of each iteration: stop when the reported total
pages is exceeded.  On 200: reset the retry counter, absorb
`paging.total`, merge the page (`merge_players`), persist
(`save_partial`, recorded in `persists`), stop on an empty item list,
else advance the page.  On 429/503/504: increment `consecutive_retries`;
if the `remaining` header says the daily quota is spent, wait for the
reset and re-fetch when `--wait-for-reset` is set, else stop; then stop
past `max_retries`; otherwise sleep the positive `retry-after` hint if
present, else the capped exponential backoff, and re-fetch the same
page.  On any other status: increment, stop past `max_retries`, sleep
the exponential backoff (the `retry-after` hint is not consulted), and
re-fetch the same page. -/
def runStore (cfg : SConfig) : List HttpResp → SState → SState × SStop
  | [], st =>
    if stopTotal st then (st, .totalReached) else (st, .outOfTrace)
  | o :: rest, st =>
    if stopTotal st then (st, .totalReached)
    else if o.status = 200 then
      let tp := match o.pagingTotal with
        | some t => some t
        | none => st.totalPages
      let m := merge_players st.store o.items
      let st' : SState :=
        { page := st.page
          totalPages := tp
          store := m.1
          retries := 0
          persists := st.persists ++ [(m.1, st.page, tp)]
          sleeps := st.sleeps
          calls := st.calls + 1 }
      if o.items.isEmpty then (st', .emptyPage)
      else runStore cfg rest { st' with page := st.page + 1 }
    else if o.status = 429 ∨ o.status = 503 ∨ o.status = 504 then
      let r := st.retries + 1
      let stR := { st with retries := r, calls := st.calls + 1 }
      match o.remaining with
      | some rem =>
        if rem ≤ 0 then
          if cfg.waitForReset then
            runStore cfg rest
              { stR with
                sleeps := stR.sleeps ++ [sleep_until_reset_wait cfg o.retryAfterHdr o.reset] }
          else (stR, .dailyLimit)
        else if r > cfg.maxRetries then (stR, .maxRetries)
        else
          runStore cfg rest
            { stR with
              sleeps := stR.sleeps ++
                [match o.retryAfterHdr with
                 | some n => if n > 0 then n else expBackoff r
                 | none => expBackoff r] }
      | none =>
        if r > cfg.maxRetries then (stR, .maxRetries)
        else
          runStore cfg rest
            { stR with
              sleeps := stR.sleeps ++
                [match o.retryAfterHdr with
                 | some n => if n > 0 then n else expBackoff r
                 | none => expBackoff r] }
    else
      let r := st.retries + 1
      let stR := { st with retries := r, calls := st.calls + 1 }
      if r > cfg.maxRetries then (stR, .maxRetries)
      else
        runStore cfg rest { stR with sleeps := stR.sleeps ++ [expBackoff r] }

/-- The id-key invariant on the int-keyed store of fetch_all_players.py:
every entry's record carries `"id"` equal to its key. -/
def storeIdOk (s : Store) : Bool :=
  s.all fun e =>
    match jGet e.2 "id" with
    | some (.jint m) => m == e.1
    | _ => false

/-- The id-key invariant on the raw-keyed store of
fetch_store_players.py: every key is an integer and the record it maps
to carries `"id"` equal to that integer. -/
def rawKeysOk (t : RawStore) : Bool :=
  t.all fun e =>
    match e.1 with
    | .jint m =>
      match jGet e.2 "id" with
      | some (.jint n) => n == m
      | _ => false
    | _ => false

/-- A plain transient failure response: HTTP 503 with no rate-limit
headers and no payload. -/
def failResp503 : HttpResp :=
  { status := 503, retryAfterHdr := none, remaining := none, reset := none,
    items := [], pagingTotal := none }

/-- A successful response carrying an empty item list. -/
def resp200empty (tp : Option Int) : HttpResp :=
  { status := 200, retryAfterHdr := none, remaining := none, reset := none,
    items := [], pagingTotal := tp }

/-- The default configuration of fetch_store_players.py's `main`:
`--max-retries 5`, no `--wait-for-reset`. -/
def cfg5 : SConfig :=
  { maxRetries := 5, waitForReset := false, now := 0 }

/-- The loop state of `main` at the start of a fresh run. -/
def sInit : SState :=
  { page := 1, totalPages := none, store := [], retries := 0,
    persists := [], sleeps := [], calls := 0 }

/-- The loop state of `fetch_all_players_progressive` at the start of a
fresh run. -/
def aInit : AState :=
  { store := [], cursor := none, emptyStreak := 0, retries := 0,
    persists := [], sleeps := [], calls := 0 }

/-- The integer ids carried by a serialized list of records, in file
order. -/
def idsOfRecords (l : List JVal) : List Int :=
  l.filterMap fun r =>
    match jGet r "id" with
    | some (.jint n) => some n
    | _ => none

/-! ## Helper lemmas -/

theorem optOr_none_right (a : Option JVal) : optOr a none = a := by
  cases a <;> rfl

theorem optOr_assoc (a b c : Option JVal) :
    optOr (optOr a b) c = optOr a (optOr b c) := by
  cases a <;> rfl

theorem findRaw_append (t u : RawStore) (pid : Int) :
    findRaw (t ++ u) pid = optOr (findRaw t pid) (findRaw u pid) := by
  induction t with
  | nil => rfl
  | cons hd tl ih =>
    obtain ⟨k, v⟩ := hd
    cases k <;> simp [List.cons_append, findRaw, ih]
    split <;> simp [optOr]

theorem firstWith_append (p q : List JVal) (pid : Int) :
    firstWith (p ++ q) pid = optOr (firstWith p pid) (firstWith q pid) := by
  induction p with
  | nil => rfl
  | cons item rest ih =>
    simp only [List.cons_append, firstWith]
    cases hid : jGet (playerOf item) "id" with
    | none => simp [ih]
    | some v =>
      cases v <;> simp [ih]
      split <;> simp [optOr]

theorem merge_players_find (items : List JVal) : ∀ (t : RawStore) (pid : Int),
    findRaw (merge_players t items).1 pid
      = optOr (findRaw t pid) (firstWith items pid) := by
  induction items with
  | nil =>
    intro t pid
    simp [merge_players, firstWith, optOr_none_right]
  | cons item rest ih =>
    intro t pid
    cases hid : jGet (playerOf item) "id" with
    | none => simp [merge_players, firstWith, hid, ih]
    | some v =>
      cases v with
      | jint m =>
        cases hft : findRaw t m with
        | some r =>
          simp only [merge_players, hid, hft, Option.isSome_some, if_true, ih]
          simp only [firstWith, hid]
          by_cases hp : m = pid
          · subst hp
            simp [hft, optOr]
          · simp [hp]
        | none =>
          simp only [merge_players, hid, hft, Option.isSome_none,
            Bool.false_eq_true, if_false, ih, findRaw_append]
          simp only [firstWith, hid]
          by_cases hp : m = pid
          · subst hp
            simp [hft, findRaw, optOr]
          · simp [findRaw, hp, optOr_none_right]
      | jnull => simp [merge_players, firstWith, hid, ih]
      | jbool b => simp [merge_players, firstWith, hid, ih]
      | jstr s => simp [merge_players, firstWith, hid, ih]
      | jarr xs => simp [merge_players, firstWith, hid, ih]
      | jobj kvs => simp [merge_players, firstWith, hid, ih]

/-! ## Claims -/

/-- C1 (corrected): in fetch_store_players.py, `merge_players` is
first-seen-wins — across any sequence of merged pages, the stored copy
under an integer id is exactly the first player record seen with that
id (later duplicates are ignored, and an id already in the store before
the pages is never overwritten). -/
theorem claimC1_first_seen : ∀ (pages : List (List JVal)) (t : RawStore) (pid : Int),
    findRaw (mergePagesFS t pages) pid
      = optOr (findRaw t pid) (firstWith pages.flatten pid) := by
  intro pages
  induction pages with
  | nil =>
    intro t pid
    simp [mergePagesFS, firstWith, optOr_none_right]
  | cons p ps ih =>
    intro t pid
    simp only [mergePagesFS, List.foldl_cons] at ih ⊢
    rw [ih, merge_players_find, List.flatten_cons, firstWith_append, optOr_assoc]

/-- C1 counterexample: in fetch_all_players.py, merging two pages that
both carry a record with id 1 stores the SECOND record, not the first:
the merge at lines 185-190 assigns unconditionally, so later duplicates
overwrite earlier ones. -/
theorem claimC1_cex :
    storeFind
        (merge_all
          (merge_all [] [JVal.jobj [("id", JVal.jint 1), ("v", JVal.jstr "a")]]).1
          [JVal.jobj [("id", JVal.jint 1), ("v", JVal.jstr "b")]]).1 1
      = some (JVal.jobj [("id", JVal.jint 1), ("v", JVal.jstr "b")]) ∧
    JVal.jobj [("id", JVal.jint 1), ("v", JVal.jstr "b")]
      ≠ JVal.jobj [("id", JVal.jint 1), ("v", JVal.jstr "a")] :=
  ⟨rfl, by simp⟩

/-- C2 (corrected, atomic part): `atomic_write_json` in
fetch_all_players.py is atomic — whatever step a crash interrupts it at,
the canonical path holds either the previous content unchanged or the
new complete snapshot, never a torn file that was not already there. -/
theorem claimC2_atomic_write : ∀ (fs : FilePair) (d : JVal) (k : Nat),
    (atomic_write_json_crash fs d k).canonical = fs.canonical ∨
    (atomic_write_json_crash fs d k).canonical = FileState.complete d := by
  intro fs d k
  unfold atomic_write_json_crash
  split
  · left; rfl
  split
  · left; rfl
  split
  · left; rfl
  · right; rfl

/-- C2 counterexample: `save_partial` in fetch_store_players.py writes
both files with `Path.write_text` directly at the canonical path; a
crash during the first write (step 1) leaves the partial-data file torn
— neither the previous snapshot nor the new one. -/
theorem claimC2_cex :
    (save_snapshot_crash
        { storeFile := FileState.complete (JVal.jarr []),
          checkpointFile := FileState.complete JVal.jnull }
        (JVal.jarr [JVal.jobj [("id", JVal.jint 1)]]) JVal.jnull 1).storeFile
      = FileState.torn ∧
    FileState.torn ≠ FileState.complete (JVal.jarr []) ∧
    FileState.torn ≠ FileState.complete (JVal.jarr [JVal.jobj [("id", JVal.jint 1)]]) :=
  ⟨rfl, by simp, by simp⟩

/-- C9 (confirmed): in `fetch_all_players_progressive`, a returned
`next_cursor` equal to the integer 0 is falsy for `if not next_cursor`,
so after persisting that page (with `resume_cursor` written as 0) the
loop stops without issuing any further fetch: the result does not depend
on what later fetches would have returned, and the loop did not end by
running out of modelled calls. -/
theorem claimC9_zero_cursor_stop :
    ∀ (st : AState) (items : List JVal) (rest rest' : List AOutcome),
    runLoop (.ok items (some 0) :: rest) st = runLoop (.ok items (some 0) :: rest') st ∧
    (runLoop (.ok items (some 0) :: rest) st).1.persists
      = st.persists ++ [((merge_all st.store items).1, some 0)] ∧
    (runLoop (.ok items (some 0) :: rest) st).2 ≠ AStop.outOfTrace := by
  intro st items rest rest'
  simp only [runLoop, cursorFalsy]
  refine ⟨?_, ?_, ?_⟩ <;> (repeat' split) <;> simp_all

/-- C8 (corrected, amended part): an unparseable (or missing) file is
individually treated as absent with the corresponding default — an
unparseable output file yields an empty store and an unparseable state
file yields the initial cursor in fetch_all_players.py, and in
fetch_store_players.py a failure of either checkpoint file yields the
fully fresh `(1, None, {})` start; no load failure is fatal. -/
theorem claimC8_parse_failure_defaults :
    (∀ d : JVal, load_json_or .unparseable d = d ∧ load_json_or .missing d = d) ∧
    (∀ sf : LoadResult, (startup_all .unparseable sf).1 = []) ∧
    (∀ a : LoadResult, (startup_all a .unparseable).2 = none) ∧
    (∀ x : LoadResult, load_checkpoint .unparseable x = (1, none, []) ∧
      load_checkpoint x .unparseable = (1, none, [])) := by
  refine ⟨fun d => ⟨rfl, rfl⟩, fun sf => rfl, fun a => rfl, fun x => ⟨?_, ?_⟩⟩
  · cases x <;> rfl
  · cases x <;> rfl

/-- C8 counterexample: in fetch_all_players.py the two files are
defaulted independently, so when the store file is unparseable but the
state file parses with `resume_cursor = 500`, the run starts with an
empty store yet resumes from cursor 500 — not from the initial cursor,
contradicting "starts fresh (empty store, initial page/cursor)". -/
theorem claimC8_cex :
    (startup_all .unparseable (.ok (JVal.jobj [("resume_cursor", JVal.jint 500)]))).2
      = some (JVal.jint 500) ∧
    (startup_all .unparseable (.ok (JVal.jobj [("resume_cursor", JVal.jint 500)]))).1 = [] ∧
    some (JVal.jint 500) ≠ (none : Option JVal) :=
  ⟨rfl, rfl, by simp⟩

theorem storeIdOk_dictSet (s : Store) (pid : Int) (d : JVal)
    (hd : jGet d "id" = some (.jint pid)) (hs : storeIdOk s = true) :
    storeIdOk (dictSet s pid d) = true := by
  induction s with
  | nil => simp [dictSet, storeIdOk, hd]
  | cons e rest ih =>
    obtain ⟨k, v⟩ := e
    simp only [storeIdOk, List.all_cons, Bool.and_eq_true] at hs
    obtain ⟨h1, h2⟩ := hs
    simp only [dictSet]
    split
    · simp only [storeIdOk, List.all_cons, Bool.and_eq_true]
      exact ⟨by simp [hd], h2⟩
    · simp only [storeIdOk, List.all_cons, Bool.and_eq_true]
      exact ⟨h1, ih h2⟩

theorem merge_all_id_ok (items : List JVal) : ∀ s : Store,
    storeIdOk s = true → storeIdOk (merge_all s items).1 = true := by
  induction items with
  | nil => intro s hs; simpa [merge_all] using hs
  | cons item rest ih =>
    intro s hs
    cases hid : jGet (to_plain_dict item) "id" with
    | none => simp only [merge_all, hid]; exact ih s hs
    | some v =>
      cases v with
      | jint m => simp only [merge_all, hid]; exact ih _ (storeIdOk_dictSet s m _ hid hs)
      | jnull => simp only [merge_all, hid]; exact ih s hs
      | jbool b => simp only [merge_all, hid]; exact ih s hs
      | jstr str => simp only [merge_all, hid]; exact ih s hs
      | jarr xs => simp only [merge_all, hid]; exact ih s hs
      | jobj kvs => simp only [merge_all, hid]; exact ih s hs

theorem merge_players_keys_ok (items : List JVal) : ∀ t : RawStore,
    rawKeysOk t = true → rawKeysOk (merge_players t items).1 = true := by
  induction items with
  | nil => intro t ht; simpa [merge_players] using ht
  | cons item rest ih =>
    intro t ht
    cases hid : jGet (playerOf item) "id" with
    | none => simp only [merge_players, hid]; exact ih t ht
    | some v =>
      cases v with
      | jint m =>
        simp only [merge_players, hid]
        split
        · exact ih t ht
        · refine ih _ ?_
          simp only [rawKeysOk, List.all_append, Bool.and_eq_true] at ht ⊢
          exact ⟨ht, by simp [hid]⟩
      | jnull => simp only [merge_players, hid]; exact ih t ht
      | jbool b => simp only [merge_players, hid]; exact ih t ht
      | jstr str => simp only [merge_players, hid]; exact ih t ht
      | jarr xs => simp only [merge_players, hid]; exact ih t ht
      | jobj kvs => simp only [merge_players, hid]; exact ih t ht

/-- C10 (corrected, amended part): both merge steps preserve the id-key
invariant — an item whose id is absent or not an integer is silently
skipped, and every entry a merge adds or overwrites is keyed by an
integer equal to its record's `"id"` field. -/
theorem claimC10_merge_preserves_invariant :
    (∀ (s : Store) (items : List JVal),
      storeIdOk s = true → storeIdOk (merge_all s items).1 = true) ∧
    (∀ (t : RawStore) (items : List JVal),
      rawKeysOk t = true → rawKeysOk (merge_players t items).1 = true) :=
  ⟨fun s items hs => merge_all_id_ok items s hs,
   fun t items ht => merge_players_keys_ok items t ht⟩

theorem claimC10_witness :
    storeIdOk (merge_all []
      [JVal.jobj [("id", JVal.jint 1)], JVal.jobj [("x", JVal.jint 2)], JVal.jnull]).1 = true ∧
    rawKeysOk (merge_players []
      [JVal.jobj [("player", JVal.jobj [("id", JVal.jint 1)])],
       JVal.jobj [("player", JVal.jobj [("id", JVal.jstr "bad")])]]).1 = true :=
  ⟨claimC10_merge_preserves_invariant.1 [] _ rfl,
   claimC10_merge_preserves_invariant.2 [] _ rfl⟩

/-- C10 counterexample: the resume-load path does NOT preserve the
invariant — `load_checkpoint` keys records by their raw `"id"` with no
integer check, so a player record with the string id `"x"` enters the
store under a non-integer key. -/
theorem claimC10_cex :
    (load_checkpoint (.ok (JVal.jobj [("next_page", JVal.jint 3)]))
        (.ok (JVal.jobj [("players", JVal.jarr [JVal.jobj [("id", JVal.jstr "x")]])]))).2.2
      = [(JVal.jstr "x", JVal.jobj [("id", JVal.jstr "x")])] ∧
    rawKeysOk [(JVal.jstr "x", JVal.jobj [("id", JVal.jstr "x")])] = false :=
  ⟨rfl, rfl⟩

theorem lookupField_setField_same (l : List (String × JVal)) (k : String) (v : JVal) :
    lookupField (setField l k v) k = some v := by
  induction l with
  | nil => simp [setField, lookupField]
  | cons e rest ih =>
    obtain ⟨k', v'⟩ := e
    simp only [setField]
    split
    · simp [lookupField]
    · next h => simp [lookupField, h, ih]

theorem lookupField_setField_other (l : List (String × JVal)) (k k' : String) (v : JVal)
    (h : k' ≠ k) : lookupField (setField l k' v) k = lookupField l k := by
  induction l with
  | nil => simp [setField, lookupField, h]
  | cons e rest ih =>
    obtain ⟨k0, v0⟩ := e
    simp only [setField]
    split
    · next he => subst he; simp [lookupField, h]
    · simp [lookupField, ih]

/-- C6 (corrected, amended part): the end-of-run finalization of
`fetch_all_players_progressive` leaves the output file untouched (no
deletion) and, whenever the reloaded state parses as a dict (including
the missing/unparseable cases, which default to `{}`), rewrites the
state file with `resume_cursor` set to the terminal sentinel `null`. -/
theorem claimC6_finalize_all_sentinel : ∀ (fs : AllFiles) (ts : JVal),
    (finalize_all fs ts).outFile = fs.outFile ∧
    (∀ kvs, load_json_or fs.stateFile (.jobj []) = .jobj kvs →
      (finalize_all fs ts).stateFile
        = .ok (.jobj (setField (setField kvs "resume_cursor" .jnull) "last_saved_at" ts)) ∧
      lookupField (setField (setField kvs "resume_cursor" .jnull) "last_saved_at" ts)
        "resume_cursor" = some .jnull) := by
  intro fs ts
  constructor
  · unfold finalize_all
    split <;> rfl
  · intro kvs hkvs
    constructor
    · unfold finalize_all
      rw [hkvs]
    · rw [lookupField_setField_other _ _ _ _ (by decide), lookupField_setField_same]

theorem claimC6_witness :
    (finalize_all
        { outFile := .ok (.jarr []),
          stateFile := .ok (.jobj [("resume_cursor", JVal.jint 42)]) }
        (.jstr "t")).stateFile
      = .ok (.jobj [("resume_cursor", JVal.jnull), ("last_saved_at", JVal.jstr "t")]) :=
  ((claimC6_finalize_all_sentinel
      { outFile := .ok (.jarr []),
        stateFile := .ok (.jobj [("resume_cursor", JVal.jint 42)]) }
      (.jstr "t")).2 [("resume_cursor", JVal.jint 42)] rfl).1

/-- C6 counterexample: `finalize` in fetch_store_players.py deletes the
partial store file after copying it to the final output and leaves the
checkpoint file completely untouched — its `next_page` stays 8, never
set to the terminal `null` sentinel the claim requires. -/
theorem claimC6_cex :
    finalize_fs none (some (JVal.jarr []))
        (some (JVal.jobj [("next_page", JVal.jint 8), ("total_pages", JVal.jint 7)]))
      = (some (JVal.jarr []), none,
         some (JVal.jobj [("next_page", JVal.jint 8), ("total_pages", JVal.jint 7)])) ∧
    jGet (JVal.jobj [("next_page", JVal.jint 8), ("total_pages", JVal.jint 7)]) "next_page"
      = some (JVal.jint 8) ∧
    some (JVal.jint 8) ≠ some JVal.jnull :=
  ⟨rfl, rfl, by simp⟩

theorem storeFind_some_mem (s : Store) (k : Int) (v : JVal)
    (h : storeFind s k = some v) : (k, v) ∈ s := by
  induction s with
  | nil => simp [storeFind] at h
  | cons e rest ih =>
    obtain ⟨k', v'⟩ := e
    simp only [storeFind] at h
    split at h
    · next he =>
      subst he
      cases h
      exact List.mem_cons_self _ _
    · exact List.mem_cons_of_mem _ (ih h)

theorem storeFind_eq_none_iff (s : Store) (k : Int) :
    storeFind s k = none ↔ k ∉ s.map Prod.fst := by
  induction s with
  | nil => simp [storeFind]
  | cons e rest ih =>
    obtain ⟨k', v'⟩ := e
    simp only [storeFind, List.map_cons, List.mem_cons]
    split
    · next he =>
      subst he
      simp
    · next he =>
      rw [ih]
      constructor
      · intro h hor
        rcases hor with h1 | h2
        · exact he h1.symm
        · exact h h2
      · intro h h2
        exact h (Or.inr h2)

theorem mem_storeFind (s : Store) (k : Int) (v : JVal)
    (nd : (s.map Prod.fst).Nodup) (h : (k, v) ∈ s) : storeFind s k = some v := by
  induction s with
  | nil => simp at h
  | cons e rest ih =>
    obtain ⟨k', v'⟩ := e
    simp only [List.map_cons, List.nodup_cons] at nd
    obtain ⟨hnk, hnd⟩ := nd
    rcases List.mem_cons.mp h with he | ht
    · rw [Prod.mk.injEq] at he
      obtain ⟨h1, h2⟩ := he
      subst h1
      subst h2
      simp [storeFind]
    · have hne : ¬ k' = k := by
        intro he
        subst he
        exact hnk (List.mem_map.mpr ⟨(k', v), ht, rfl⟩)
      simp only [storeFind, if_neg hne]
      exact ih hnd ht

theorem storeFind_perm (s t : Store) (nd : (s.map Prod.fst).Nodup)
    (p : s.Perm t) (k : Int) : storeFind s k = storeFind t k := by
  have ndt : (t.map Prod.fst).Nodup := ((p.map Prod.fst).nodup_iff).mp nd
  cases h : storeFind s k with
  | some v => exact (mem_storeFind t k v ndt (p.subset (storeFind_some_mem s k v h))).symm
  | none =>
    have h1 : k ∉ s.map Prod.fst := (storeFind_eq_none_iff s k).mp h
    have h2 : k ∉ t.map Prod.fst := fun hk => h1 ((p.map Prod.fst).mem_iff.mpr hk)
    exact ((storeFind_eq_none_iff t k).mpr h2).symm

theorem sortedKeys_perm (s t : Store) (p : s.Perm t) : sortedKeys s = sortedKeys t := by
  have h1 : List.Sorted (· ≤ ·) (sortedKeys s) := List.sorted_insertionSort _ _
  have h2 : List.Sorted (· ≤ ·) (sortedKeys t) := List.sorted_insertionSort _ _
  exact List.eq_of_perm_of_sorted
    (((List.perm_insertionSort _ _).trans (p.map Prod.fst)).trans
      (List.perm_insertionSort _ _).symm) h1 h2

/-- C3 (corrected, amended part): the output array written by
`save_progress` in fetch_all_players.py is ordered by ascending key,
and — for stores with duplicate-free keys, which is what the scripts
build — it is invariant under any reordering of the store's entries,
i.e. a deterministic function of the set of stored records. -/
theorem claimC3_sorted_deterministic :
    (∀ s : Store, List.Sorted (· ≤ ·) (sortedKeys s)) ∧
    (∀ s t : Store, (s.map Prod.fst).Nodup → s.Perm t →
      save_progress_players s = save_progress_players t) := by
  constructor
  · intro s
    exact List.sorted_insertionSort _ _
  · intro s t nd p
    unfold save_progress_players
    rw [sortedKeys_perm s t p]
    exact List.map_congr_left fun k _ => by rw [storeFind_perm s t nd p k]

theorem claimC3_witness :
    save_progress_players [(2, JVal.jnull), (1, JVal.jbool true)]
      = save_progress_players [(1, JVal.jbool true), (2, JVal.jnull)] :=
  claimC3_sorted_deterministic.2 _ _ (by decide) (List.Perm.swap _ _ _)

/-- C3 counterexample: `save_partial` in fetch_store_players.py emits
`list(players_by_id.values())` in insertion order with no sorting: after
merging a page whose items arrive with ids 2 then 1, the file lists ids
`[2, 1]`, which is not ascending — the on-disk order depends on
insertion order. -/
theorem claimC3_cex :
    idsOfRecords (save_snapshot_players (merge_players []
      [JVal.jobj [("player", JVal.jobj [("id", JVal.jint 2)])],
       JVal.jobj [("player", JVal.jobj [("id", JVal.jint 1)])]]).1) = [2, 1] ∧
    ¬ List.Sorted (· ≤ ·) ([2, 1] : List Int) :=
  ⟨rfl, by decide⟩

theorem runLoop_all_fail : ∀ (k : Nat) (st : AState) (rest rest' : List AOutcome),
    st.retries + k = 6 → 1 ≤ k →
    (runLoop (List.replicate k .fail ++ rest) st).2 = AStop.retryCeiling ∧
    (runLoop (List.replicate k .fail ++ rest) st).1.persists = st.persists ∧
    (runLoop (List.replicate k .fail ++ rest) st).1.store = st.store ∧
    runLoop (List.replicate k .fail ++ rest) st
      = runLoop (List.replicate k .fail ++ rest') st := by
  intro k
  induction k with
  | zero =>
    intro st rest rest' h h1
    exact absurd h1 (by omega)
  | succ n ih =>
    intro st rest rest' h h1
    simp only [List.replicate_succ, List.cons_append, runLoop]
    by_cases hr : st.retries + 1 > 5
    · simp [if_pos hr]
    · have hn : 1 ≤ n := by omega
      simp only [if_neg hr]
      exact ih _ rest rest' (by simp; omega) hn

theorem runStore_all_fail (cfg : SConfig) : ∀ (k : Nat) (st : SState) (rest rest' : List HttpResp),
    st.totalPages = none → st.retries + k = cfg.maxRetries + 1 → 1 ≤ k →
    (runStore cfg (List.replicate k failResp503 ++ rest) st).2 = SStop.maxRetries ∧
    (runStore cfg (List.replicate k failResp503 ++ rest) st).1.persists = st.persists ∧
    (runStore cfg (List.replicate k failResp503 ++ rest) st).1.store = st.store ∧
    runStore cfg (List.replicate k failResp503 ++ rest) st
      = runStore cfg (List.replicate k failResp503 ++ rest') st := by
  intro k
  induction k with
  | zero =>
    intro st rest rest' hnp h h1
    exact absurd h1 (by omega)
  | succ n ih =>
    intro st rest rest' hnp h h1
    have hst : stopTotal st = false := by simp [stopTotal, hnp]
    have hmatch : ∀ tr, runStore cfg (failResp503 :: tr) st
        = if st.retries + 1 > cfg.maxRetries
          then ({ st with retries := st.retries + 1, calls := st.calls + 1 }, SStop.maxRetries)
          else runStore cfg tr
            { st with
              retries := st.retries + 1
              calls := st.calls + 1
              sleeps := st.sleeps ++ [expBackoff (st.retries + 1)] } := by
      intro tr
      simp [runStore, hst, failResp503]
    simp only [List.replicate_succ, List.cons_append, hmatch]
    by_cases hr : st.retries + 1 > cfg.maxRetries
    · simp [if_pos hr]
    · have hn : 1 ≤ n := by omega
      simp only [if_neg hr]
      exact ih _ rest rest' (by simp [hnp]) (by simp; omega) hn

/-- C4 (confirmed): when every fetch of a page keeps failing with a plain
transient error, both loops retry that page exactly up to the configured
ceiling (5 retries after the first attempt in fetch_all_players.py, and
`max_retries` in fetch_store_players.py) and then end the run normally:
the stop reason is the retry-ceiling exit, the store and the list of
already-persisted snapshots are exactly as before the failing page, and
the result does not depend on any later fetch — the loop never retries
forever. -/
theorem claimC4_retry_ceiling :
    (∀ (st : AState) (rest rest' : List AOutcome), st.retries = 0 →
      (runLoop (List.replicate 6 .fail ++ rest) st).2 = AStop.retryCeiling ∧
      (runLoop (List.replicate 6 .fail ++ rest) st).1.persists = st.persists ∧
      (runLoop (List.replicate 6 .fail ++ rest) st).1.store = st.store ∧
      runLoop (List.replicate 6 .fail ++ rest) st
        = runLoop (List.replicate 6 .fail ++ rest') st) ∧
    (∀ (cfg : SConfig) (st : SState) (rest rest' : List HttpResp),
      st.retries = 0 → st.totalPages = none →
      (runStore cfg (List.replicate (cfg.maxRetries + 1) failResp503 ++ rest) st).2
        = SStop.maxRetries ∧
      (runStore cfg (List.replicate (cfg.maxRetries + 1) failResp503 ++ rest) st).1.persists
        = st.persists ∧
      (runStore cfg (List.replicate (cfg.maxRetries + 1) failResp503 ++ rest) st).1.store
        = st.store ∧
      runStore cfg (List.replicate (cfg.maxRetries + 1) failResp503 ++ rest) st
        = runStore cfg (List.replicate (cfg.maxRetries + 1) failResp503 ++ rest') st) := by
  constructor
  · intro st rest rest' h0
    exact runLoop_all_fail 6 st rest rest' (by omega) (by omega)
  · intro cfg st rest rest' h0 hnp
    exact runStore_all_fail cfg (cfg.maxRetries + 1) st rest rest' hnp (by omega) (by omega)

theorem claimC4_witness :
    (runLoop (List.replicate 6 .fail ++ []) aInit).2 = AStop.retryCeiling ∧
    (runStore cfg5 (List.replicate (cfg5.maxRetries + 1) failResp503 ++ []) sInit).2
      = SStop.maxRetries :=
  ⟨(claimC4_retry_ceiling.1 aInit [] [] rfl).1,
   (claimC4_retry_ceiling.2 cfg5 sInit [] [] rfl rfl).1⟩

/-- C5 (confirmed): a fetch returning an empty item list with no further
cursor stops the loop right after that page's persist, in both scripts:
in fetch_all_players.py the page is persisted (with cursor `None`) and
the loop stops without consulting any later fetch; in
fetch_store_players.py (when the reported-total check did not already
stop the run before the call) the empty 200-page is persisted and the
loop stops with the empty-page exit, again independently of any later
fetch. -/
theorem claimC5_empty_page_stops :
    (∀ (st : AState) (rest rest' : List AOutcome),
      runLoop (.ok [] none :: rest) st = runLoop (.ok [] none :: rest') st ∧
      (runLoop (.ok [] none :: rest) st).1.persists = st.persists ++ [(st.store, none)] ∧
      (runLoop (.ok [] none :: rest) st).2 ≠ AStop.outOfTrace) ∧
    (∀ (cfg : SConfig) (st : SState) (tp : Option Int) (rest rest' : List HttpResp),
      stopTotal st = false →
      runStore cfg (resp200empty tp :: rest) st
        = runStore cfg (resp200empty tp :: rest') st ∧
      (runStore cfg (resp200empty tp :: rest) st).2 = SStop.emptyPage ∧
      (runStore cfg (resp200empty tp :: rest) st).1.persists
        = st.persists ++ [(st.store, st.page,
            match tp with | some u => some u | none => st.totalPages)]) := by
  constructor
  · intro st rest rest'
    simp only [runLoop, cursorFalsy]
    refine ⟨?_, ?_, ?_⟩ <;> (repeat' split) <;> simp_all [merge_all]
  · intro cfg st tp rest rest' hst
    simp only [runStore, resp200empty, hst, Bool.false_eq_true, if_false]
    refine ⟨?_, ?_, ?_⟩ <;> simp [merge_players]

theorem claimC5_witness :
    (runStore cfg5 [resp200empty none] sInit).2 = SStop.emptyPage :=
  (claimC5_empty_page_stops.2 cfg5 sInit none [] [] rfl).2.1

/-- C7 (corrected, amended part): in the 429/503/504 branch of
fetch_store_players.py's `main` (when the daily-quota exit does not
trigger and the retry ceiling is not yet exceeded), a positive
`retry-after` hint is slept verbatim before retrying instead of the
computed exponential backoff, and the exponential backoff
`min(2**retries, 60)` is used when no hint is present. -/
theorem claimC7_retry_after_hint :
    ∀ (cfg : SConfig) (st : SState) (rest : List HttpResp) (o : HttpResp),
    stopTotal st = false →
    (o.status = 429 ∨ o.status = 503 ∨ o.status = 504) →
    (∀ v, o.remaining = some v → 0 < v) →
    st.retries + 1 ≤ cfg.maxRetries →
    (∀ n, o.retryAfterHdr = some n → 0 < n →
      runStore cfg (o :: rest) st
        = runStore cfg rest
            { st with
              retries := st.retries + 1
              calls := st.calls + 1
              sleeps := st.sleeps ++ [n] }) ∧
    (o.retryAfterHdr = none →
      runStore cfg (o :: rest) st
        = runStore cfg rest
            { st with
              retries := st.retries + 1
              calls := st.calls + 1
              sleeps := st.sleeps ++ [expBackoff (st.retries + 1)] }) := by
  intro cfg st rest o hst hstat hrem hle
  have h200 : ¬ o.status = 200 := by rcases hstat with h | h | h <;> simp [h]
  have hler : ¬ st.retries + 1 > cfg.maxRetries := by omega
  constructor
  · intro n hra hn
    cases hrm : o.remaining with
    | none =>
      simp [runStore, hst, h200, hstat, hrm, hler, hra, hn]
    | some v =>
      have hv0 : ¬ v ≤ 0 := by
        have := hrem v hrm
        omega
      simp [runStore, hst, h200, hstat, hrm, hv0, hler, hra, hn]
  · intro hra
    cases hrm : o.remaining with
    | none =>
      simp [runStore, hst, h200, hstat, hrm, hler, hra]
    | some v =>
      have hv0 : ¬ v ≤ 0 := by
        have := hrem v hrm
        omega
      simp [runStore, hst, h200, hstat, hrm, hv0, hler, hra]

theorem claimC7_witness :
    runStore cfg5
      [{ status := 429, retryAfterHdr := some 7, remaining := none, reset := none,
         items := [], pagingTotal := none }] sInit
      = runStore cfg5 []
          { page := 1, totalPages := none, store := [], retries := 1,
            persists := [], sleeps := [7], calls := 1 } :=
  (claimC7_retry_after_hint cfg5 sInit []
      { status := 429, retryAfterHdr := some 7, remaining := none, reset := none,
        items := [], pagingTotal := none }
      rfl (Or.inl rfl) (fun v hv => by cases hv) (by decide)).1 7 rfl (by decide)

/-- C7 counterexample: an HTTP 500 response is also retried (the loop
continues and would fetch again), but it falls in the catch-all branch
that never consults `retry-after`: with a hint of 10 seconds present,
the loop sleeps the exponential backoff of 2 seconds instead of the
hinted 10. -/
theorem claimC7_cex :
    (runStore cfg5
      [{ status := 500, retryAfterHdr := some 10, remaining := none, reset := none,
         items := [], pagingTotal := none }] sInit).1.sleeps = [2] ∧
    (runStore cfg5
      [{ status := 500, retryAfterHdr := some 10, remaining := none, reset := none,
         items := [], pagingTotal := none }] sInit).2 = SStop.outOfTrace ∧
    (2 : Nat) ≠ 10 :=
  ⟨rfl, rfl, by decide⟩
